import Mathlib

/-!
Verification development for the Referential repository: a shallow embedding of
the schema-driven form pipeline (metadata cache, entity-descriptor parser,
schema compiler, form state engine, CRUD error normalization) found in
`app/src/Referential/useODataCRUD.ts` (two hook variants), the unnamed
`useODataCRUD` variant, and `app/src/Builder/core/useForm.ts`, together with
theorems settling the frozen claims about it.

JavaScript runtime values are modelled by an explicit `Value` type with JS
truthiness; JS objects (records) are modelled by association lists with
overwrite-on-assignment semantics; machine time is modelled by `Nat`
millisecond timestamps.
-/

namespace Referential

/-- A primitive JavaScript value as it occurs in the embedded code paths
(strings, numbers, booleans, `null`).  `undefined` is modelled by wrapping in
`Option` (`none` = absent / `undefined`). -/
inductive Value where
  | str (s : String)
  | num (n : Int)
  | bool (b : Bool)
  | null
deriving DecidableEq, Repr

/-- JS truthiness of a primitive value: `""`, `0`, `false` and `null` are
falsy, everything else is truthy. -/
def Value.truthy : Value → Bool
  | .str s => s ≠ ""
  | .num n => n ≠ 0
  | .bool b => b
  | .null => false

/-- JS truthiness of a possibly-`undefined` value (`none` = `undefined`,
which is falsy). -/
def truthyO : Option Value → Bool
  | none => false
  | some v => v.truthy

/-- The JS `||` operator on possibly-`undefined` values: the left operand if
truthy, otherwise the right operand. -/
def jsOr (a b : Option Value) : Option Value :=
  if truthyO a then a else b

/-- JS string coercion as used in template literals (`` `ID: ${x}` ``):
`undefined` prints as `"undefined"`, `null` as `"null"`. -/
def jsToStr : Option Value → String
  | none => "undefined"
  | some (.str s) => s
  | some (.num n) => toString n
  | some (.bool b) => if b then "true" else "false"
  | some .null => "null"

/-- JS `String.prototype.toLowerCase` (ASCII case folding, which covers every
identifier occurring in the schema documents). -/
def jsToLower (s : String) : String :=
  ⟨s.data.map Char.toLower⟩

/-- JS `String.prototype.includes`: `jsIncludes s sub` is `true` iff `sub`
occurs as a contiguous substring of `s`. -/
def jsIncludes (s sub : String) : Bool :=
  decide (List.IsInfix sub.data s.data)

/-- JS `String.prototype.startsWith`: `p` is a prefix of `s`. -/
def jsStartsWith (s p : String) : Bool :=
  decide (List.IsPrefix p.data s.data)

/-- JS `parseInt` restricted to the digit strings occurring as `MaxLength`
attributes: the longest leading run of decimal digits, `none` when the string
does not start with a digit (`NaN`). -/
def jsParseInt (s : String) : Option Nat :=
  let digits := s.data.takeWhile Char.isDigit
  if digits.isEmpty then none
  else some (digits.foldl (fun acc c => acc * 10 + (c.toNat - '0'.toNat)) 0)

section RecordOps

variable {α : Type}

/-- Property read on a JS record modelled as an association list (first
binding wins; bindings are unique for records built by assignment). -/
def recordGet : List (String × α) → String → Option α
  | [], _ => none
  | (k', v') :: rest, k => if k' = k then some v' else recordGet rest k

/-- Property assignment on a JS record: overwrite the existing binding in
place, or append a new one. -/
def recordSet : List (String × α) → String → α → List (String × α)
  | [], k, v => [(k, v)]
  | (k', v') :: rest, k, v =>
      if k' = k then (k, v) :: rest else (k', v') :: recordSet rest k v

/-- The JS `delete` operator on a record: remove the binding for a key. -/
def recordDelete : List (String × α) → String → List (String × α)
  | [], _ => []
  | (k', v') :: rest, k =>
      if k' = k then recordDelete rest k else (k', v') :: recordDelete rest k

/-- Property read following JS object-literal evaluation order where a later
assignment to the same key overwrites an earlier one: the last binding wins. -/
def lookupLast (l : List (String × α)) (k : String) : Option α :=
  recordGet l.reverse k

end RecordOps

/-! ## Entity Descriptor Parser (`extractEntityMetadata`)

Embeds the property/navigation-property extraction loops of
`extractEntityMetadata`.  A parsed XML element node is its attribute map
(the `XMLParser` is configured with `ignoreAttributes: false,
attributeNamePrefix: ""`, so attribute values stay strings keyed by their
plain names). -/

/-- A parsed XML element node: its attribute map as produced by the XML
parser (attribute values are strings; a missing attribute reads as
`undefined`). -/
structure RawNode where
  attrs : List (String × String)
deriving DecidableEq, Repr

/-- Attribute read on a parsed node (`prop.Name`, `prop.Nullable`, …). -/
def RawNode.attr (n : RawNode) (k : String) : Option String :=
  recordGet n.attrs k

/-- Attribute read as a JS value, for the `||` annotation chains. -/
def RawNode.attrV (n : RawNode) (k : String) : Option Value :=
  (n.attr k).map Value.str

/-- One parsed property descriptor (the `PropertyMetadata` interface). -/
structure PropertyMetadata where
  name : String
  type : String
  nullable : Bool
  maxLength : Option Nat
  displayName : Option Value
  description : Option Value
  placeholder : Option Value
deriving DecidableEq, Repr

/-- One parsed navigation-property descriptor
(the `NavigationPropertyMetadata` interface). -/
structure NavigationPropertyMetadata where
  name : String
  type : String
  nullable : Bool
  isCollection : Bool
  partner : Option String
deriving DecidableEq, Repr

/-- The parsed entity descriptor (the `EntityMetadata` interface). -/
structure EntityMetadata where
  name : String
  properties : List PropertyMetadata
  navigationProperties : List NavigationPropertyMetadata
deriving DecidableEq, Repr

/-- The body of the `props.forEach` loop in `extractEntityMetadata`:
annotation chains for display metadata, `nullable` is the strict comparison
`prop.Nullable === "true"`, and `maxLength` is `prop.MaxLength ?
parseInt(prop.MaxLength) : undefined` (a truthiness guard, so the empty
string yields `undefined`).  The annotation chains look attributes up under
the `@_`-prefixed names the source writes (`prop["@_sap:label"]` …). -/
def parseProperty (n : RawNode) : PropertyMetadata :=
  { name := (n.attr "Name").getD ""
    type := (n.attr "Type").getD ""
    nullable := n.attr "Nullable" = some "true"
    maxLength :=
      match n.attr "MaxLength" with
      | some s => if s ≠ "" then jsParseInt s else none
      | none => none
    displayName :=
      jsOr (n.attrV "@_sap:label") (jsOr (n.attrV "@_sap:display-format")
        (jsOr (n.attrV "@_sap:quickinfo") (jsOr (n.attrV "@_microsoft:displayName")
          (jsOr (n.attrV "@_microsoft:label") (jsOr (n.attrV "@_odata:displayName")
            (n.attrV "@_odata:label"))))))
    description :=
      jsOr (n.attrV "@_sap:quickinfo") (jsOr (n.attrV "@_sap:label")
        (jsOr (n.attrV "@_microsoft:description") (n.attrV "@_odata:description")))
    placeholder :=
      jsOr (n.attrV "@_sap:placeholder") (jsOr (n.attrV "@_sap:display-format")
        (jsOr (n.attrV "@_microsoft:placeholder") (n.attrV "@_odata:placeholder"))) }

/-- The body of the `navProps.forEach` loop: a navigation property is a
collection iff its `Type` attribute starts with `"Collection("`. -/
def parseNavigationProperty (n : RawNode) : NavigationPropertyMetadata :=
  { name := (n.attr "Name").getD ""
    type := (n.attr "Type").getD ""
    nullable := n.attr "Nullable" = some "true"
    isCollection := jsStartsWith ((n.attr "Type").getD "") "Collection("
    partner := n.attr "Partner" }

/-- A located entity-type node: its `Name` plus property and
navigation-property child nodes. -/
structure RawEntityType where
  name : String
  propertyNodes : List RawNode
  navigationPropertyNodes : List RawNode
deriving DecidableEq, Repr

/-- `extractEntityMetadata` restricted to a located entity-type node: maps
the extraction loops over the child nodes. -/
def extractEntityMetadata (e : RawEntityType) : EntityMetadata :=
  { name := e.name
    properties := e.propertyNodes.map parseProperty
    navigationProperties := e.navigationPropertyNodes.map parseNavigationProperty }

/-! ## Schema Compiler (`initializeForm` / `generateFormSchema`)

Embeds the form-schema generation of the entity-bound hook's
`initializeForm` (regular-property compilation plus foreign-key →
select-option resolution for single-valued navigation properties). -/

/-- `getFieldType` of the entity-bound hook: UI field kind inferred from the
property's `Edm.*` type, with `Edm.String` promoted to `textarea` when
`maxLength > 255`. -/
def getFieldType (p : PropertyMetadata) : String :=
  match p.type with
  | "Edm.String" =>
      match p.maxLength with
      | some m => if m > 255 then "textarea" else "text"
      | none => "text"
  | "Edm.Int32" => "number"
  | "Edm.Int64" => "number"
  | "Edm.Decimal" => "number"
  | "Edm.Double" => "number"
  | "Edm.Boolean" => "checkbox"
  | "Edm.DateTime" => "date"
  | "Edm.DateTimeOffset" => "date"
  | "Edm.Guid" => "text"
  | "Edm.Binary" => "file"
  | _ => "text"

/-- `getInitialValue` of the entity-bound hook: the type-appropriate default
value for a property. -/
def getInitialValue (p : PropertyMetadata) : Value :=
  match p.type with
  | "Edm.String" => .str ""
  | "Edm.Int32" => .num 0
  | "Edm.Int64" => .num 0
  | "Edm.Decimal" => .num 0
  | "Edm.Double" => .num 0
  | "Edm.Boolean" => .bool false
  | "Edm.DateTime" => .str ""
  | "Edm.DateTimeOffset" => .str ""
  | "Edm.Guid" => .str ""
  | "Edm.Binary" => .null
  | _ => .str ""

/-- One option of a compiled `select` field (`{value, label}`). -/
structure SelectOption where
  value : Option Value
  label : Value
deriving DecidableEq, Repr

/-- One compiled form field (`schema[key] = {type, props}` in the source).
`maxLength`/`step` are `none` when the corresponding spread added nothing;
`options` is `none` for non-select fields. -/
structure Field where
  type : String
  label : Value
  helpText : Option Value
  placeholder : Value
  required : Bool
  maxLength : Option Nat
  step : Option String
  options : Option (List SelectOption)
deriving DecidableEq, Repr

/-- The property filter of `initializeForm`: skip `__`-prefixed system
properties and identity-like names (`"Id"`, `"id"`, or any name whose
lower-casing contains `"id"`). -/
def includeProp (p : PropertyMetadata) : Bool :=
  !jsStartsWith p.name "__" && p.name ≠ "Id" && p.name ≠ "id" &&
    !jsIncludes (jsToLower p.name) "id"

/-- The schema entry built for one regular property: label/help/placeholder
from the parsed display metadata with JS `||` fallbacks, `required =
!prop.nullable`, `maxLength` only when truthy (non-zero), and a fixed
`step: "0.01"` for decimal/double properties. -/
def mkField (p : PropertyMetadata) : Field :=
  { type := getFieldType p
    label := (jsOr p.displayName (some (.str p.name))).getD .null
    helpText := p.description
    placeholder := (jsOr p.placeholder
      (some (.str ("Enter " ++ jsToLower p.name)))).getD .null
    required := !p.nullable
    maxLength :=
      match p.maxLength with
      | some m => if m ≠ 0 then some m else none
      | none => none
    step := if p.type = "Edm.Decimal" ∨ p.type = "Edm.Double"
            then some "0.01" else none
    options := none }

/-- One item of a navigation target's list response, restricted to the
fields the option mapper reads (`Id`/`id`/`ID`, `Name`/`name`,
`Title`/`title`); `none` models an absent field (`undefined`). -/
structure NavEntity where
  idCap : Option Value
  idLow : Option Value
  idUpp : Option Value
  nameCap : Option Value
  nameLow : Option Value
  titleCap : Option Value
  titleLow : Option Value
deriving DecidableEq, Repr

/-- The identity-field chain `entity.Id || entity.id || entity.ID`. -/
def navEntityId (e : NavEntity) : Option Value :=
  jsOr e.idCap (jsOr e.idLow e.idUpp)

/-- The option mapper of `loadNavigationOptions`: identity field to `value`,
best-effort display field (`Name`/`name`/`Title`/`title`, falling back to
the template string `"ID: <id>"`) to `label`. -/
def navOption (e : NavEntity) : SelectOption :=
  { value := navEntityId e
    label := (jsOr e.nameCap (jsOr e.nameLow (jsOr e.titleCap (jsOr e.titleLow
        (some (.str ("ID: " ++ jsToStr (navEntityId e)))))))).getD .null }

/-- The `select` schema entry built for a resolved navigation property, with
its options populated from the target's list response (`none` = the list
fetch failed or returned not-ok, leaving the initial empty `options`). -/
def mkNavField (nav : NavigationPropertyMetadata)
    (fetched : Option (List NavEntity)) : Field :=
  { type := "select"
    label := .str nav.name
    helpText := some (.str ("Select " ++ nav.name))
    placeholder := .str ("Choose " ++ nav.name)
    required := !nav.nullable
    maxLength := none
    step := none
    options := some (match fetched with
      | some entities => entities.map navOption
      | none => []) }

/-- The regular-property part of the compiled schema: filter then compile,
keyed by property name. -/
def regularFields (em : EntityMetadata) : List (String × Field) :=
  (em.properties.filter includeProp).map (fun p => (p.name, mkField p))

/-- Whether the owning entity has a property literally named
`<NavigationName>Id` (the foreign-key check `hasForeignKey`). -/
def hasForeignKey (em : EntityMetadata) (nav : NavigationPropertyMetadata) : Bool :=
  em.properties.any (fun p => p.name = nav.name ++ "Id")

/-- The navigation-derived part of the compiled schema: for each
single-valued navigation property whose owning entity has a matching
foreign-key property, a `select` field keyed `<NavigationName>Id` whose
options come from the list query `GET {baseUrl}/odata/{NavigationName}`
(the source uses the navigation property's name as the collection
endpoint); navigations without a foreign key are skipped. -/
def navFields (em : EntityMetadata) (baseUrl : String)
    (fetchList : String → Option (List NavEntity)) : List (String × Field) :=
  (em.navigationProperties.filter (fun n => !n.isCollection)).filterMap
    (fun nav =>
      if hasForeignKey em nav then
        some (nav.name ++ "Id",
              mkNavField nav (fetchList (baseUrl ++ "/odata/" ++ nav.name)))
      else none)

/-- The full compiled `FieldSchema` map of `initializeForm`: regular fields
first, then the navigation-derived select fields (later assignments to the
same key overwrite, hence `lookupLast` for reads).  `fetchList` abstracts
the network: it maps a list-query URL to its decoded response
(`none` = failure). -/
def formSchema (em : EntityMetadata) (baseUrl : String)
    (fetchList : String → Option (List NavEntity)) : List (String × Field) :=
  regularFields em ++ navFields em baseUrl fetchList

/-- The initial values built alongside the schema: type defaults for regular
properties, `""` for each resolved foreign-key select. -/
def formInitialValues (em : EntityMetadata) : List (String × Value) :=
  (em.properties.filter includeProp).map (fun p => (p.name, getInitialValue p)) ++
    (em.navigationProperties.filter (fun n => !n.isCollection)).filterMap
      (fun nav =>
        if hasForeignKey em nav then some (nav.name ++ "Id", Value.str "")
        else none)

/-! ## Form State Engine (`useForm`)

Embeds the state transitions of `useForm`: values and errors are JS records;
`setValue` guards the error deletion by JS truthiness of the existing entry
(`if (errors[key])`). -/

/-- The current field values of one form instance. -/
abbrev Values := List (String × Value)

/-- The current validation errors of one form instance
(`errors: Record<string, string>`). -/
abbrev Errors := List (String × String)

/-- The state owned by one `useForm` instance. -/
structure FormState where
  values : Values
  errors : Errors
deriving DecidableEq, Repr

/-- JS truthiness of a possibly-absent string (an error-map read): absent
(`undefined`) and the empty string are falsy. -/
def truthyStrO : Option String → Bool
  | none => false
  | some m => m ≠ ""

/-- `setValue(key, value)`: assign the value, and delete the field's error
only when the existing entry is truthy (`if (errors[key]) delete …`). -/
def setValue (s : FormState) (k : String) (v : Value) : FormState :=
  { values := recordSet s.values k v
    errors := if truthyStrO (recordGet s.errors k)
              then recordDelete s.errors k
              else s.errors }

/-- `resetValues(values?)`: `setValues(newValues || initialValues)` (a
supplied values object is always truthy) and `setErrors({})`. -/
def resetValues (initialValues : Values) (arg : Option Values)
    (_s : FormState) : FormState :=
  { values := match arg with
      | some newValues => newValues
      | none => initialValues
    errors := [] }

/-- The validator output at the current values (`validator(values)`;
no injected validator behaves like a validator returning `{}`). -/
def validatorOutput (validator : Option (Values → Errors)) (vals : Values) :
    Errors :=
  match validator with
  | some f => f vals
  | none => []

/-- `validateFields()`: `clearAllErrors()` then one `setError` per entry of
the validator output (so the error map is rebuilt from `{}` by record
assignment), returning whether the validator output was empty. -/
def validateFields (validator : Option (Values → Errors)) (s : FormState) :
    FormState × Bool :=
  let newErrors := validatorOutput validator s.values
  (⟨s.values, newErrors.foldl (fun acc kv => recordSet acc kv.1 kv.2) []⟩,
   newErrors.isEmpty)

/-- `submit()`: validate; only when validation succeeds, emit the current
values on the success path (the source's only success action is
`console.log("Form submitted:", values)`, modelled as the emitted payload;
`none` = invalid submission, nothing emitted). -/
def submit (validator : Option (Values → Errors)) (s : FormState) :
    FormState × Option Values :=
  let (s', valid) := validateFields validator s
  if valid then (s', some s'.values) else (s', none)

/-! ## CRUD Client error normalization (`create`)

Embeds the non-OK-response classification of the two `create` variants: the
entity-bound hook's `create` checks a bare `{field: [message,…]}` map, then
OData `error.details[]`, then a nested `error.message` object; the cached
multi-entity hook's `create` checks only the latter two shapes. -/

/-- A JSON value as decoded from a response body. -/
inductive Json where
  | null
  | str (s : String)
  | num (n : Int)
  | bool (b : Bool)
  | arr (items : List Json)
  | obj (fields : List (String × Json))
deriving Repr

/-- JS truthiness of a JSON value: arrays and objects are truthy. -/
def Json.truthy : Json → Bool
  | .null => false
  | .str s => s ≠ ""
  | .num n => n ≠ 0
  | .bool b => b
  | .arr _ => true
  | .obj _ => true

/-- JS truthiness of a possibly-`undefined` JSON value. -/
def jtruthyO : Option Json → Bool
  | none => false
  | some j => j.truthy

/-- Property read on a JSON value (`undefined` on non-objects, matching the
optional-chaining reads in the source). -/
def jget : Json → String → Option Json
  | .obj fields, k => recordGet fields k
  | _, _ => none

/-- `Object.entries` on the decoded body: field list of an object, or
index-keyed entries of an array (both have `typeof === "object"`). -/
def objEntries : Json → List (String × Json)
  | .obj fields => fields
  | .arr items => (items.enum.map fun p => (toString p.1, p.2))
  | _ => []

/-- Whether `typeof errorData === "object"` (objects, arrays and `null`;
reading `.error` off a literal `null` body raises a `TypeError` that the
surrounding `catch` rethrows as a non-validation failure, which coincides
with the generic outcome this model assigns it). -/
def typeofObject : Json → Bool
  | .obj _ => true
  | .arr _ => true
  | .null => true
  | _ => false

/-- JS string coercion of a JSON value inside a template literal. -/
def Json.jsToStr : Option Json → String
  | none => "undefined"
  | some .null => "null"
  | some (.str s) => s
  | some (.num n) => toString n
  | some (.bool b) => if b then "true" else "false"
  | some (.arr _) => ""
  | some (.obj _) => "[object Object]"

/-- One step of the shared field-message extraction loop: a field whose
value is a non-empty message array contributes its first message, a string
message contributes itself, anything else is skipped. -/
def fmStep (acc : List (String × Json)) (kv : String × Json) :
    List (String × Json) :=
  match kv.2 with
  | .arr (m :: _) => recordSet acc kv.1 m
  | .str s => recordSet acc kv.1 (.str s)
  | _ => acc

/-- The shared field-message extraction loop (`Object.entries(…).forEach`):
assignments accumulate into a fresh record. -/
def firstMessages (fields : List (String × Json)) : List (String × Json) :=
  fields.foldl fmStep []

/-- `target.replace(/^#\//, "")`: strip one leading `"#/"`. -/
def stripHashSlash (t : String) : String :=
  if jsStartsWith t "#/" then ⟨t.data.drop 2⟩ else t

/-- The `error.details[]` extraction loop: each detail with truthy string
`target` and truthy `message` contributes `message` under the stripped
target name. -/
def detailsMessages (details : List Json) : List (String × Json) :=
  details.foldl (fun acc d =>
    match jget d "target", jget d "message" with
    | some (.str t), some m =>
        if t ≠ "" ∧ m.truthy then recordSet acc (stripHashSlash t) m else acc
    | _, _ => acc) []

/-- The outcome of a non-OK CRUD response: a normalized validation error map
(thrown as `{ type: "validation", errors }`, the discriminant tag), or a
generic error with its message. -/
inductive CrudError where
  | validation (errors : List (String × Json))
  | generic (message : String)
deriving Repr

/-- The generic fallback `new Error(errorData.error?.message || "HTTP error!
status: <status>")`. -/
def genericMessage (status : Nat) (errorData : Json) : String :=
  match jget errorData "error" with
  | some e =>
      match jget e "message" with
      | some m => if m.truthy then Json.jsToStr (some m)
                  else "HTTP error! status: " ++ toString status
      | none => "HTTP error! status: " ++ toString status
  | none => "HTTP error! status: " ++ toString status

/-- The `error.details[]` shape check shared by every `create` variant:
a truthy `details` array with at least one extracted field. -/
def detailsShape (errorData : Json) : Option (List (String × Json)) :=
  match (jget errorData "error").bind (jget · "details") with
  | some (.arr ds) =>
      let ve := detailsMessages ds
      if ve.isEmpty then none else some ve
  | _ => none

/-- The nested `error.message`-object shape check (`errorData.error?.message
&& typeof … === "object"`) shared by every `create` variant. -/
def messageObjectShape (errorData : Json) : Option (List (String × Json)) :=
  match (jget errorData "error").bind (jget · "message") with
  | some m =>
      if m.truthy && typeofObject m then
        let ve := firstMessages (objEntries m)
        if ve.isEmpty then none else some ve
      else none
  | none => none

/-- The bare-map shape check of the entity-bound `create` (`typeof errorData
=== "object" && !errorData.error`, then the entries extraction). -/
def bareMapShape (errorData : Json) : Option (List (String × Json)) :=
  if typeofObject errorData && !jtruthyO (jget errorData "error") then
    let ve := firstMessages (objEntries errorData)
    if ve.isEmpty then none else some ve
  else none

/-- Non-OK response classification of the entity-bound hook's `create`:
bare map, then `error.details[]`, then nested `error.message` object,
then the generic fallback. -/
def classifyCreateError (status : Nat) (errorData : Json) : CrudError :=
  match bareMapShape errorData with
  | some ve => .validation ve
  | none =>
      match detailsShape errorData with
      | some ve => .validation ve
      | none =>
          match messageObjectShape errorData with
          | some ve => .validation ve
          | none => .generic (genericMessage status errorData)

/-- Non-OK response classification of the cached multi-entity hook's
`create` (and of the unnamed per-entity variant): only `error.details[]`
and the nested `error.message` object are checked — there is no bare-map
shape check. -/
def classifyCreateErrorMulti (status : Nat) (errorData : Json) : CrudError :=
  match detailsShape errorData with
  | some ve => .validation ve
  | none =>
      match messageObjectShape errorData with
      | some ve => .validation ve
      | none => .generic (genericMessage status errorData)

/-! ## Metadata Cache (`fetchMetadata` of the cached hook)

Embeds the cache-consulting and cache-storing paths of `fetchMetadata`:
entries are keyed `"{baseUrl}:{entityName}"`, validity is
`Date.now() < expiresAt`, and a completed fetch stores
`{data, timestamp: now, expiresAt: now + cacheTimeout}` unconditionally. -/

/-- One cache record (`MetadataCache` in the source). -/
structure MetadataCacheEntry where
  data : EntityMetadata
  timestamp : Nat
  expiresAt : Nat
deriving DecidableEq, Repr

/-- The process-wide metadata cache (`metadataCache` module map). -/
abbrev Cache := List (String × MetadataCacheEntry)

/-- `isCacheValid`: `Date.now() < cache.expiresAt`. -/
def isCacheValid (now : Nat) (c : MetadataCacheEntry) : Bool :=
  now < c.expiresAt

/-- The fetch-completion path of `fetchMetadata` (`metadataCache.set(cacheKey,
{data, timestamp: now, expiresAt: now + cacheTimeout})`): an unconditional
overwrite of whatever entry is cached under the key. -/
def storeFetched (cache : Cache) (cacheKey : String) (d : EntityMetadata)
    (completedAt cacheTimeout : Nat) : Cache :=
  recordSet cache cacheKey ⟨d, completedAt, completedAt + cacheTimeout⟩

/-- The observable outcome of one `fetchMetadata` call. -/
structure FetchMetadataResult where
  result : Option EntityMetadata
  fromCache : Bool
  performedFetch : Bool
  newCache : Cache
deriving Repr

/-- `fetchMetadata(entityName, forceRefresh)` as a function of the cache
state, the clock, and the network outcome (`fetchOutcome` is the fetched and
extracted descriptor; `none` covers HTTP failure, parse failure, or an
unknown entity, each of which throws and caches nothing).  Unless
`forceRefresh` is set, a cached entry that is still valid at `now` is
returned without fetching; otherwise one metadata fetch is performed and, on
success, its result is stored with timestamps taken at completion
(`completedAt`). -/
def fetchMetadata (cache : Cache) (baseUrl entityName : String)
    (forceRefresh : Bool) (now completedAt cacheTimeout : Nat)
    (fetchOutcome : Option EntityMetadata) : FetchMetadataResult :=
  let cacheKey := baseUrl ++ ":" ++ entityName
  let cachedHit : Option MetadataCacheEntry :=
    if forceRefresh then none
    else match recordGet cache cacheKey with
      | some c => if isCacheValid now c then some c else none
      | none => none
  match cachedHit with
  | some c => ⟨some c.data, true, false, cache⟩
  | none =>
      match fetchOutcome with
      | some d =>
          ⟨some d, false, true, storeFetched cache cacheKey d completedAt cacheTimeout⟩
      | none => ⟨none, false, true, cache⟩

/-! ## Debounced metadata initialization (`debouncedInitializeMetadata`)

Embeds the per-`baseUrl` timer logic: each call clears any armed timer for
the endpoint (leaving the cancelled caller's promise forever pending, since
only the timer callback can settle it) and arms a fresh 300 ms timer; when a
timer fires, its callback performs the single metadata fetch and settles
exactly the arming caller's promise. -/

/-- The debounce state for one `baseUrl`: the caller whose timer is
currently armed, the callers whose promises have been resolved/rejected, and
the number of network fetches performed. -/
structure DebounceState where
  pendingTimer : Option Nat
  resolvedCallers : List Nat
  rejectedCallers : List Nat
  fetchCount : Nat
deriving DecidableEq, Repr

/-- The state before any call. -/
def initDebounce : DebounceState := ⟨none, [], [], 0⟩

/-- One call to `debouncedInitializeMetadata` by `caller`: `clearTimeout` on
any armed timer (its caller's promise is abandoned un-settled), then arm a
new timer for this caller. -/
def debounceCall (s : DebounceState) (caller : Nat) : DebounceState :=
  { s with pendingTimer := some caller }

/-- The armed timer firing after the 300 ms delay: the callback performs the
metadata fetch and resolves (or, on failure, rejects) the arming caller's
promise, then clears the timer reference.  A cancelled timer never fires. -/
def fireTimer (s : DebounceState) (fetchOk : Bool) : DebounceState :=
  match s.pendingTimer with
  | some caller =>
      { pendingTimer := none
        resolvedCallers :=
          if fetchOk then caller :: s.resolvedCallers else s.resolvedCallers
        rejectedCallers :=
          if fetchOk then s.rejectedCallers else caller :: s.rejectedCallers
        fetchCount := s.fetchCount + 1 }
  | none => s

/-- An event observable by the debounce state: a new call, or the armed
timer firing (with the fetch outcome). -/
inductive DebounceEvent where
  | call (caller : Nat)
  | fire (fetchOk : Bool)
deriving DecidableEq, Repr

/-- Run a sequence of debounce events. -/
def runDebounce (s : DebounceState) : List DebounceEvent → DebounceState
  | [] => s
  | .call c :: evs => runDebounce (debounceCall s c) evs
  | .fire ok :: evs => runDebounce (fireTimer s ok) evs

/-- A caller's promise has been settled (resolved or rejected). -/
def settledCaller (s : DebounceState) (c : Nat) : Prop :=
  c ∈ s.resolvedCallers ∨ c ∈ s.rejectedCallers

instance (s : DebounceState) (c : Nat) : Decidable (settledCaller s c) := by
  unfold settledCaller; infer_instance

/-! ## Concrete example inputs

Small concrete instances (mirroring the repository's `Product`/`Category`
and `Order`/`Customer` models) used as witnesses and counterexample
inputs. -/

/-- A `Product`-like descriptor: a `Name` property, a `CategoryId`
foreign-key property, and a single-valued `Category` navigation. -/
def productExample : EntityMetadata :=
  { name := "Product"
    properties :=
      [ { name := "Name", type := "Edm.String", nullable := false,
          maxLength := some 100, displayName := none, description := none,
          placeholder := none },
        { name := "CategoryId", type := "Edm.Int32", nullable := false,
          maxLength := none, displayName := none, description := none,
          placeholder := none } ]
    navigationProperties :=
      [ { name := "Category", type := "Api.Models.Category", nullable := false,
          isCollection := false, partner := some "Products" } ] }

/-- An `Order`-like descriptor: an `OrderDate` property, a `CustomerId`
foreign-key property, and a single-valued `Customer` navigation. -/
def orderExample : EntityMetadata :=
  { name := "Order"
    properties :=
      [ { name := "OrderDate", type := "Edm.DateTimeOffset", nullable := false,
          maxLength := none, displayName := none, description := none,
          placeholder := none },
        { name := "CustomerId", type := "Edm.Int32", nullable := false,
          maxLength := none, displayName := none, description := none,
          placeholder := none } ]
    navigationProperties :=
      [ { name := "Customer", type := "Api.Models.Customer", nullable := false,
          isCollection := false, partner := some "Orders" } ] }

/-- A bare-map validation body, exactly the `POST` response
`{"Name":["The Name field is required."]}`. -/
def bareValidationBody : Json :=
  .obj [("Name", .arr [.str "The Name field is required."])]

/-- Two descriptors for the same entity as fetched at different times (the
server gained a `Name` property between the two fetches). -/
def staleProductData : EntityMetadata :=
  { name := "Product", properties := [], navigationProperties := [] }

/-- The fresher descriptor, with the added property. -/
def freshProductData : EntityMetadata :=
  { name := "Product"
    properties :=
      [ { name := "Name", type := "Edm.String", nullable := false,
          maxLength := none, displayName := none, description := none,
          placeholder := none } ]
    navigationProperties := [] }

/-- One `Customer` list item, carrying `Id` and `Name` fields. -/
def aliceEntity : NavEntity :=
  { idCap := some (.num 1), idLow := none, idUpp := none,
    nameCap := some (.str "Alice"), nameLow := none,
    titleCap := none, titleLow := none }

/-- A concrete network mapping: the `Customer` collection endpoint returns
one item, every other URL fails. -/
def customerFetchExample : String → Option (List NavEntity) :=
  fun url => if url = "http://s/odata/Customer" then some [aliceEntity] else none

/-! ## General lemmas on the record operations -/

section RecordLemmas

variable {α : Type}

theorem recordGet_recordSet_self (l : List (String × α)) (k : String) (v : α) :
    recordGet (recordSet l k v) k = some v := by
  induction l with
  | nil => simp [recordSet, recordGet]
  | cons hd tl ih =>
      by_cases h : hd.1 = k
      · simp [recordSet, recordGet, h]
      · simp [recordSet, recordGet, h, ih]

theorem recordGet_recordSet_ne (l : List (String × α)) (k k' : String) (v : α)
    (h : k' ≠ k) : recordGet (recordSet l k v) k' = recordGet l k' := by
  induction l with
  | nil => simp [recordSet, recordGet, Ne.symm h]
  | cons hd tl ih =>
      by_cases hk : hd.1 = k
      · simp [recordSet, recordGet, hk, Ne.symm h]
      · by_cases hk' : hd.1 = k'
        · simp [recordSet, recordGet, hk, hk', h]
        · simp [recordSet, recordGet, hk, hk', ih]

theorem recordGet_recordDelete_self (l : List (String × α)) (k : String) :
    recordGet (recordDelete l k) k = none := by
  induction l with
  | nil => simp [recordDelete, recordGet]
  | cons hd tl ih =>
      by_cases h : hd.1 = k
      · simp [recordDelete, h, ih]
      · simp [recordDelete, recordGet, h, ih]

theorem recordGet_recordDelete_ne (l : List (String × α)) (k k' : String)
    (h : k' ≠ k) : recordGet (recordDelete l k) k' = recordGet l k' := by
  induction l with
  | nil => simp [recordDelete]
  | cons hd tl ih =>
      by_cases hk : hd.1 = k
      · simp [recordDelete, recordGet, hk, Ne.symm h, ih]
      · by_cases hk' : hd.1 = k'
        · simp [recordDelete, recordGet, hk, hk', h]
        · simp [recordDelete, recordGet, hk, hk', ih]

theorem recordGet_eq_none_of_forall_not_mem (l : List (String × α)) (k : String)
    (h : ∀ v, (k, v) ∉ l) : recordGet l k = none := by
  induction l with
  | nil => rfl
  | cons hd tl ih =>
      by_cases hk : hd.1 = k
      · exact absurd (by simp [← hk]) (h hd.2)
      · simpa [recordGet, hk] using ih (fun v hv => h v (List.mem_cons_of_mem _ hv))

theorem recordGet_of_mem_of_unique (l : List (String × α)) (k : String) (v : α)
    (hmem : (k, v) ∈ l) (huniq : ∀ v', (k, v') ∈ l → v' = v) :
    recordGet l k = some v := by
  induction l with
  | nil => cases hmem
  | cons hd tl ih =>
      by_cases hk : hd.1 = k
      · have : hd.2 = v := huniq hd.2 (by simp [← hk])
        simp [recordGet, hk, this]
      · have hmem' : (k, v) ∈ tl := by
          rcases List.mem_cons.mp hmem with h | h
          · exact absurd (congrArg Prod.fst h.symm) hk
          · exact h
        simpa [recordGet, hk] using
          ih hmem' (fun v' hv' => huniq v' (List.mem_cons_of_mem _ hv'))

end RecordLemmas

/-! ## Lemmas on strings and the schema-compiler key sets -/

theorem string_append_right_cancel {s t u : String} (h : s ++ u = t ++ u) :
    s = t := by
  have hd : s.data ++ u.data = t.data ++ u.data := by
    have := congrArg String.data h
    simpa [String.data_append] using this
  have : s.data = t.data := List.append_cancel_right hd
  exact congrArg String.mk this

theorem jsIncludes_toLower_append_Id (s : String) :
    jsIncludes (jsToLower (s ++ "Id")) "id" = true := by
  apply decide_eq_true
  have hdata : (jsToLower (s ++ "Id")).data
      = s.data.map Char.toLower ++ ['i', 'd'] := by
    simp [jsToLower, String.data_append]
  rw [show ("id" : String).data = ['i', 'd'] from rfl, hdata]
  exact (List.suffix_append _ _).isInfix

theorem mem_regularFields (em : EntityMetadata) (k : String) (f : Field)
    (h : (k, f) ∈ regularFields em) :
    ∃ p ∈ em.properties, includeProp p = true ∧ k = p.name ∧ f = mkField p := by
  unfold regularFields at h
  rcases List.mem_map.mp h with ⟨p, hp, hpe⟩
  rcases List.mem_filter.mp hp with ⟨hmem, hinc⟩
  exact ⟨p, hmem, hinc, (congrArg Prod.fst hpe).symm, (congrArg Prod.snd hpe).symm⟩

theorem mem_navFields (em : EntityMetadata) (baseUrl : String)
    (fetchList : String → Option (List NavEntity)) (k : String) (f : Field) :
    (k, f) ∈ navFields em baseUrl fetchList ↔
      ∃ n ∈ em.navigationProperties, n.isCollection = false ∧
        hasForeignKey em n = true ∧ k = n.name ++ "Id" ∧
        f = mkNavField n (fetchList (baseUrl ++ "/odata/" ++ n.name)) := by
  unfold navFields
  constructor
  · intro h
    rcases List.mem_filterMap.mp h with ⟨n, hn, hne⟩
    rcases List.mem_filter.mp hn with ⟨hmem, hcol⟩
    by_cases hfk : hasForeignKey em n = true
    · rw [if_pos hfk] at hne
      refine ⟨n, hmem, by simpa using hcol, hfk, ?_, ?_⟩
      · exact (congrArg Prod.fst (Option.some.inj hne)).symm
      · exact (congrArg Prod.snd (Option.some.inj hne)).symm
    · rw [if_neg hfk] at hne
      cases hne
  · rintro ⟨n, hmem, hcol, hfk, hk, hf⟩
    apply List.mem_filterMap.mpr
    refine ⟨n, List.mem_filter.mpr ⟨hmem, by simp [hcol]⟩, ?_⟩
    rw [if_pos hfk, hk, hf]

theorem regularFields_key_no_id (em : EntityMetadata) (k : String) (f : Field)
    (h : (k, f) ∈ regularFields em) :
    jsIncludes (jsToLower k) "id" = false := by
  rcases mem_regularFields em k f h with ⟨p, _, hinc, hk, _⟩
  subst hk
  unfold includeProp at hinc
  simp only [Bool.and_eq_true, Bool.not_eq_true'] at hinc
  exact hinc.2

theorem regularFields_key_ne_navId (em : EntityMetadata) (k : String) (f : Field)
    (h : (k, f) ∈ regularFields em) (s : String) : k ≠ s ++ "Id" := by
  intro hk
  have h1 := regularFields_key_no_id em k f h
  rw [hk, jsIncludes_toLower_append_Id s] at h1
  cases h1

/-! ## Claim C9 — resetValues with no argument -/

/-- Claim C9: `resetValues()` called with no argument restores exactly the
original initial values and an empty error map, and is idempotent (two
resets in a row yield the same state as one). -/
theorem resetValues_restores_initial_idempotent
    (initialValues : Values) (s : FormState) :
    resetValues initialValues none s = ⟨initialValues, []⟩ ∧
    resetValues initialValues none (resetValues initialValues none s) =
      resetValues initialValues none s :=
  ⟨rfl, rfl⟩

/-! ## Claim C8 — setValue and the error map -/

/-- Claim C8 counterexample: the error-clearing in `setValue` is guarded by
JS truthiness (`if (errors[key])`), so a present entry whose message is the
empty string is NOT removed.  Starting from `errors = {a: ""}` (reachable via
`setError("a", "")`), `setValue("a", "x")` leaves `errors["a"]` in place,
refuting the claim that `setValue(k, v)` removes `errors[k]` whenever it is
present. -/
theorem setValue_keeps_empty_string_error :
    recordGet (FormState.errors ⟨[], [("a", "")]⟩) "a" = some "" ∧
    (setValue ⟨[], [("a", "")]⟩ "a" (Value.str "x")).errors = [("a", "")] := by
  constructor
  · rfl
  · rfl

/-- Claim C8 as amended: `setValue(k, v)` removes the entry `errors[k]` when
it is present with a non-empty (truthy) message; a present entry with the
empty-string message is left unchanged (the truthiness guard skips the
deletion), as is the whole error map when no entry is present; the error
entry of every key other than `k` is always left unchanged. -/
theorem setValue_clears_truthy_error_frame
    (s : FormState) (k : String) (v : Value) :
    (∀ m, recordGet s.errors k = some m → m ≠ "" →
        recordGet (setValue s k v).errors k = none) ∧
    (recordGet s.errors k = some "" → (setValue s k v).errors = s.errors) ∧
    (recordGet s.errors k = none → (setValue s k v).errors = s.errors) ∧
    (∀ k', k' ≠ k → recordGet (setValue s k v).errors k' = recordGet s.errors k') := by
  refine ⟨?_, ?_, ?_, ?_⟩
  · intro m hm hne
    have ht : truthyStrO (recordGet s.errors k) = true := by
      rw [hm]; simpa [truthyStrO] using hne
    simp only [setValue, ht, if_true]
    exact recordGet_recordDelete_self s.errors k
  · intro hm
    simp [setValue, hm, truthyStrO]
  · intro hm
    simp [setValue, hm, truthyStrO]
  · intro k' hk'
    by_cases ht : truthyStrO (recordGet s.errors k) = true
    · simp only [setValue, ht, if_true]
      exact recordGet_recordDelete_ne s.errors k k' hk'
    · simp [setValue, ht]

/-- Claim C8 witness: with `errors = {a: "msg", b: "other"}`,
`setValue("a", "x")` removes the entry for `a` and leaves the entry for `b`
unchanged. -/
theorem setValue_clears_truthy_error_frame_witness :
    recordGet (setValue ⟨[], [("a", "msg"), ("b", "other")]⟩ "a"
        (Value.str "x")).errors "a" = none ∧
    recordGet (setValue ⟨[], [("a", "msg"), ("b", "other")]⟩ "a"
        (Value.str "x")).errors "b" = some "other" :=
  ⟨(setValue_clears_truthy_error_frame ⟨[], [("a", "msg"), ("b", "other")]⟩
      "a" (Value.str "x")).1 "msg" (by decide) (by decide),
   ((setValue_clears_truthy_error_frame ⟨[], [("a", "msg"), ("b", "other")]⟩
      "a" (Value.str "x")).2.2.2 "b" (by decide)).trans (by decide)⟩

/-! ## Claim C7 — submit gates the values on validation -/

/-- Claim C7: `submit()` runs validation and, only when validation succeeds,
emits the current values on the success path (the source's success action,
`console.log("Form submitted:", values)`, is modelled as the emitted
payload); an invalid submission leaves the values unchanged, changes the
state only by replacing the error map with the validator's output, and emits
nothing; `submit` is a total function, so it never throws. -/
theorem submit_gates_values_on_validation
    (validator : Option (Values → Errors)) (s : FormState) :
    (submit validator s).1.values = s.values ∧
    ((submit validator s).2 = some s.values ↔
        validatorOutput validator s.values = []) ∧
    ((submit validator s).2 = none ∨ (submit validator s).2 = some s.values) ∧
    (submit validator s).1.errors = (validateFields validator s).1.errors := by
  by_cases h : validatorOutput validator s.values = []
  · refine ⟨?_, ?_, ?_, ?_⟩ <;>
      simp [submit, validateFields, h]
  · have hne : (validatorOutput validator s.values).isEmpty = false := by
      simpa [List.isEmpty_iff] using h
    refine ⟨?_, ?_, ?_, ?_⟩ <;>
      simp [submit, validateFields, hne, h]

/-! ## Claim C10 — nullability is the strict string comparison -/

/-- Claim C10: the parser marks a property nullable iff the raw `Nullable`
attribute is literally the string `"true"` (`prop.Nullable === "true"`); an
absent attribute or any other spelling (for example `"True"`) yields a
non-nullable property, and the compiled field of any property is marked
required exactly when the property is non-nullable
(`required: !prop.nullable`). -/
theorem nullable_iff_attr_literal_true (n : RawNode) :
    ((parseProperty n).nullable = true ↔ n.attr "Nullable" = some "true") ∧
    (mkField (parseProperty n)).required = !(parseProperty n).nullable := by
  constructor
  · simp [parseProperty]
  · rfl

/-! ## Claim C4 — cache expiry and forceRefresh -/

/-- Claim C4: `fetchMetadata` never serves a cached descriptor once the
entry's `expiresAt` has been reached (the validity check is
`Date.now() < expiresAt`), performing a fresh metadata fetch instead; and a
call with `forceRefresh = true` performs a new metadata fetch regardless of
the cached entry's freshness. -/
theorem fetchMetadata_no_stale_hit_and_forceRefresh_fetches
    (cache : Cache) (baseUrl entityName : String) (forceRefresh : Bool)
    (now completedAt cacheTimeout : Nat) (fetchOutcome : Option EntityMetadata) :
    (∀ c, recordGet cache (baseUrl ++ ":" ++ entityName) = some c →
        c.expiresAt ≤ now →
        (fetchMetadata cache baseUrl entityName forceRefresh now completedAt
            cacheTimeout fetchOutcome).fromCache = false ∧
        (fetchMetadata cache baseUrl entityName forceRefresh now completedAt
            cacheTimeout fetchOutcome).performedFetch = true) ∧
    (forceRefresh = true →
        (fetchMetadata cache baseUrl entityName forceRefresh now completedAt
            cacheTimeout fetchOutcome).fromCache = false ∧
        (fetchMetadata cache baseUrl entityName forceRefresh now completedAt
            cacheTimeout fetchOutcome).performedFetch = true) := by
  constructor
  · intro c hc hexp
    have hvalid : isCacheValid now c = false := by
      simp [isCacheValid]
      omega
    cases forceRefresh <;>
      cases fetchOutcome <;>
        simp [fetchMetadata, hc, hvalid]
  · intro hforce
    subst hforce
    cases fetchOutcome <;> simp [fetchMetadata]

/-- Claim C4 witness: with an entry for `http://s:Product` that expired at
time 100, a plain call at `now = 100` does not serve the cache and performs
a fetch; and a `forceRefresh` call always fetches. -/
theorem fetchMetadata_no_stale_hit_witness :
    ((fetchMetadata [("http://s:Product", ⟨staleProductData, 0, 100⟩)]
        "http://s" "Product" false 100 105 300000
        (some freshProductData)).fromCache = false ∧
     (fetchMetadata [("http://s:Product", ⟨staleProductData, 0, 100⟩)]
        "http://s" "Product" false 100 105 300000
        (some freshProductData)).performedFetch = true) ∧
    ((fetchMetadata [("http://s:Product", ⟨staleProductData, 0, 100⟩)]
        "http://s" "Product" true 50 55 300000
        (some freshProductData)).fromCache = false ∧
     (fetchMetadata [("http://s:Product", ⟨staleProductData, 0, 100⟩)]
        "http://s" "Product" true 50 55 300000
        (some freshProductData)).performedFetch = true) :=
  ⟨(fetchMetadata_no_stale_hit_and_forceRefresh_fetches _ _ _ false 100 105
      300000 (some freshProductData)).1 ⟨staleProductData, 0, 100⟩
      (by decide) (by decide),
   (fetchMetadata_no_stale_hit_and_forceRefresh_fetches _ _ _ true 50 55
      300000 (some freshProductData)).2 rfl⟩

/-! ## Claim C3 — stale in-flight fetches are NOT discarded -/

/-- Claim C3 counterexample: the fetch-completion path stores its result
unconditionally (`metadataCache.set(cacheKey, cacheEntry)` with no
comparison against the cached entry's fetch time).  Concretely: the cache
holds a fresher entry fetched at time 100; a stale fetch that started at
time 50 (before the cached entry's fetch) completes at time 150, and its
result is applied, overwriting the fresher entry — the claim requires it to
be discarded. -/
theorem storeFetched_overwrites_fresher_entry :
    recordGet (storeFetched
        [("http://s:Product", ⟨freshProductData, 100, 300100⟩)]
        "http://s:Product" staleProductData 150 300000) "http://s:Product" =
      some ⟨staleProductData, 150, 300150⟩ ∧
    staleProductData ≠ freshProductData := by
  constructor
  · rfl
  · decide

/-- Claim C3 as amended: a completed successful fetch's result is always
applied to the cache, unconditionally overwriting whatever entry is cached
under the key (last completion wins, with no comparison of start or fetch
times); entries under other keys are unaffected. -/
theorem storeFetched_always_applies
    (cache : Cache) (cacheKey : String) (d : EntityMetadata)
    (completedAt cacheTimeout : Nat) :
    recordGet (storeFetched cache cacheKey d completedAt cacheTimeout) cacheKey =
      some ⟨d, completedAt, completedAt + cacheTimeout⟩ ∧
    ∀ k', k' ≠ cacheKey →
      recordGet (storeFetched cache cacheKey d completedAt cacheTimeout) k' =
        recordGet cache k' :=
  ⟨recordGet_recordSet_self cache cacheKey _,
   fun k' hk' => recordGet_recordSet_ne cache cacheKey k' _ hk'⟩

/-- Claim C3 witness: applying the amended statement at the counterexample
cache shows the stale result stored under its key and an unrelated key
untouched. -/
theorem storeFetched_always_applies_witness :
    recordGet (storeFetched
        [("http://s:Product", ⟨freshProductData, 100, 300100⟩)]
        "http://s:Product" staleProductData 150 300000) "http://s:Product" =
      some ⟨staleProductData, 150, 300150⟩ ∧
    recordGet (storeFetched
        [("http://s:Product", ⟨freshProductData, 100, 300100⟩)]
        "http://s:Product" staleProductData 150 300000) "http://s:Category" =
      recordGet [("http://s:Product", ⟨freshProductData, 100, 300100⟩)]
        "http://s:Category" :=
  ⟨(storeFetched_always_applies _ "http://s:Product" staleProductData 150
      300000).1,
   (storeFetched_always_applies _ "http://s:Product" staleProductData 150
      300000).2 "http://s:Category" (by decide)⟩

/-! ## Claim C5 — debounce vs. coalescing -/

/-- A caller that is neither settled nor armed stays unsettled under any
further events that do not re-issue its call: only the armed timer's firing
can settle a promise, and a cancelled timer never fires. -/
theorem notSettled_persists (s : DebounceState) (c : Nat)
    (h1 : ¬ settledCaller s c) (h2 : s.pendingTimer ≠ some c)
    (evs : List DebounceEvent) (h3 : DebounceEvent.call c ∉ evs) :
    ¬ settledCaller (runDebounce s evs) c := by
  induction evs generalizing s with
  | nil => exact h1
  | cons e evs ih =>
      have h3head : e ≠ DebounceEvent.call c := fun he => h3 (he ▸ List.mem_cons_self _ _)
      have h3tail : DebounceEvent.call c ∉ evs := fun hm => h3 (List.mem_cons_of_mem _ hm)
      cases e with
      | call c' =>
          have hcc : c' ≠ c := fun h => h3head (by rw [h])
          refine ih (debounceCall s c') h1 ?_ h3tail
          simp only [debounceCall]
          exact fun h => hcc (Option.some.inj h)
      | fire ok =>
          cases hp : s.pendingTimer with
          | none =>
              exact ih _ (by simpa [fireTimer, hp] using h1)
                (by simp [fireTimer, hp]) h3tail
          | some caller =>
              have hcaller : c ≠ caller := fun h => h2 (by rw [hp, h])
              have hres : c ∉ s.resolvedCallers := fun h => h1 (Or.inl h)
              have hrej : c ∉ s.rejectedCallers := fun h => h1 (Or.inr h)
              refine ih _ ?_ (by simp [fireTimer, hp]) h3tail
              cases ok <;>
                simp [fireTimer, hp, settledCaller, hcaller, hres, hrej]

/-- Claim C5 counterexample: two calls within the coalescing window followed
by the surviving timer's firing.  Exactly one network fetch happens (the
claim's first half holds), but only the second caller's promise resolves;
the first caller — whose timer was cleared by the second call — is left with
a promise that is neither resolved nor rejected, refuting "neither caller's
request is dropped or left unresolved". -/
theorem debounce_leaves_first_caller_unsettled :
    (runDebounce initDebounce
      [.call 1, .call 2, .fire true]).fetchCount = 1 ∧
    (runDebounce initDebounce
      [.call 1, .call 2, .fire true]).resolvedCallers = [2] ∧
    ¬ settledCaller (runDebounce initDebounce
      [.call 1, .call 2, .fire true]) 1 := by
  refine ⟨rfl, rfl, ?_⟩
  decide

/-- Claim C5 as amended: two concurrent calls for the same endpoint within
the coalescing window result in exactly one network fetch, but its result
settles only the most recent caller's promise; the earlier caller's promise
is never settled by any continuation of the run that does not re-issue that
caller's request (its timer was cancelled, and only a timer callback settles
a promise — the earlier caller can observe the metadata only through the
shared polling state, not through its own promise). -/
theorem debounce_one_fetch_settles_last_caller_only :
    (runDebounce initDebounce
      [.call 1, .call 2, .fire true]).fetchCount = 1 ∧
    (runDebounce initDebounce
      [.call 1, .call 2, .fire true]).resolvedCallers = [2] ∧
    (runDebounce initDebounce
      [.call 1, .call 2, .fire true]).rejectedCallers = [] ∧
    ∀ evs : List DebounceEvent, DebounceEvent.call 1 ∉ evs →
      ¬ settledCaller (runDebounce (runDebounce initDebounce
          [.call 1, .call 2, .fire true]) evs) 1 := by
  refine ⟨rfl, rfl, rfl, ?_⟩
  intro evs hevs
  exact notSettled_persists _ 1 (by decide) (by decide) evs hevs

/-- Claim C5 witness: after the two-call run and an arbitrary further fire,
caller 1 is still unsettled. -/
theorem debounce_one_fetch_settles_last_caller_only_witness :
    ¬ settledCaller (runDebounce (runDebounce initDebounce
        [.call 1, .call 2, .fire true]) [.fire false]) 1 :=
  debounce_one_fetch_settles_last_caller_only.2.2.2 [.fire false] (by simp)

/-! ## Claim C1 — identity-like keys in the compiled schema -/

/-- Claim C1 counterexample: compiling a `Product` descriptor that has a
`CategoryId` foreign-key property and a single-valued `Category` navigation
produces the key set `{Name, CategoryId}` — the navigation-resolution step
adds the select field keyed `CategoryId`, whose lower-casing contains
`"id"`, so an identity-like key does appear in the compiled `FieldSchema`,
refuting the claim for navigation-derived keys. -/
theorem formSchema_contains_id_containing_key :
    ((formSchema productExample "http://s" (fun _ => none)).map Prod.fst
      = ["Name", "CategoryId"]) ∧
    jsIncludes (jsToLower "CategoryId") "id" = true := by
  constructor
  · decide
  · decide

/-- Claim C1 as amended: no key compiled from a regular property is
identity-like — every key of the compiled `FieldSchema` whose lower-casing
contains `"id"` is the foreign-key name `<NavigationName>Id` of a
single-valued navigation property that was resolved because the entity has a
matching foreign-key property. -/
theorem formSchema_id_keys_are_nav_foreign_keys
    (em : EntityMetadata) (baseUrl : String)
    (fetchList : String → Option (List NavEntity)) (key : String)
    (hmem : key ∈ (formSchema em baseUrl fetchList).map Prod.fst)
    (hid : jsIncludes (jsToLower key) "id" = true) :
    ∃ nav ∈ em.navigationProperties, nav.isCollection = false ∧
      hasForeignKey em nav = true ∧ key = nav.name ++ "Id" := by
  rcases List.mem_map.mp hmem with ⟨⟨k, f⟩, hkf, hfst⟩
  have hk : k = key := hfst
  subst hk
  rcases List.mem_append.mp (by simpa [formSchema] using hkf) with hreg | hnav
  · have hno := regularFields_key_no_id em k f hreg
    rw [hid] at hno
    cases hno
  · rcases (mem_navFields em baseUrl fetchList k f).mp hnav with
      ⟨n, hn, hcol, hfk, hkeq, _⟩
    exact ⟨n, hn, hcol, hfk, hkeq⟩

/-- Claim C1 witness: the only identity-like key of the `Product` schema,
`CategoryId`, is indeed a resolved navigation foreign key. -/
theorem formSchema_id_keys_are_nav_foreign_keys_witness :
    ∃ nav ∈ productExample.navigationProperties, nav.isCollection = false ∧
      hasForeignKey productExample nav = true ∧
      "CategoryId" = nav.name ++ "Id" :=
  formSchema_id_keys_are_nav_foreign_keys productExample "http://s"
    (fun _ => none) "CategoryId" (by decide) (by decide)

/-! ## Claim C6 — foreign-key navigation resolution -/

/-- `hasForeignKey` depends only on the navigation property's name. -/
theorem hasForeignKey_eq_of_name_eq (em : EntityMetadata)
    (n n' : NavigationPropertyMetadata) (h : n.name = n'.name) :
    hasForeignKey em n = hasForeignKey em n' := by
  simp [hasForeignKey, h]

/-- Claim C6: for any descriptor with a single-valued navigation property
`Customer` (unique among its navigations by that name) and a property
`CustomerId`, the compiled schema has a field keyed `CustomerId` of kind
`select` whose options are populated from the list query against
`{baseUrl}/odata/Customer`, each option produced by `navOption` (identity
field to `value`, best-effort display field to `label`); and for any
navigation without a matching `<NavigationName>Id` property, compilation
skips the navigation — the schema simply has no entry under that key — and
still returns normally. -/
theorem formSchema_customer_navigation_select :
    (∀ (em : EntityMetadata) (baseUrl : String)
        (fetchList : String → Option (List NavEntity))
        (nav : NavigationPropertyMetadata),
        nav ∈ em.navigationProperties →
        (∀ n ∈ em.navigationProperties, n.name = "Customer" → n = nav) →
        nav.name = "Customer" →
        nav.isCollection = false →
        hasForeignKey em nav = true →
        lookupLast (formSchema em baseUrl fetchList) "CustomerId" =
          some (mkNavField nav (fetchList (baseUrl ++ "/odata/" ++ "Customer"))) ∧
        (mkNavField nav (fetchList (baseUrl ++ "/odata/" ++ "Customer"))).type
          = "select" ∧
        (mkNavField nav (fetchList (baseUrl ++ "/odata/" ++ "Customer"))).options
          = some (match fetchList (baseUrl ++ "/odata/" ++ "Customer") with
                  | some entities => entities.map navOption
                  | none => [])) ∧
    (∀ (em : EntityMetadata) (baseUrl : String)
        (fetchList : String → Option (List NavEntity))
        (nav : NavigationPropertyMetadata),
        hasForeignKey em nav = false →
        lookupLast (formSchema em baseUrl fetchList) (nav.name ++ "Id") = none) := by
  constructor
  · intro em baseUrl fetchList nav hmem huniq hname hcol hfk
    refine ⟨?_, rfl, rfl⟩
    have hmemnav : ("CustomerId",
        mkNavField nav (fetchList (baseUrl ++ "/odata/" ++ "Customer")))
        ∈ navFields em baseUrl fetchList := by
      apply (mem_navFields em baseUrl fetchList _ _).mpr
      exact ⟨nav, hmem, hcol, hfk, by rw [hname]; decide, by rw [hname]⟩
    have huniqkey : ∀ f', ("CustomerId", f') ∈ formSchema em baseUrl fetchList →
        f' = mkNavField nav (fetchList (baseUrl ++ "/odata/" ++ "Customer")) := by
      intro f' hf'
      rcases List.mem_append.mp (by simpa [formSchema] using hf') with hreg | hnav
      · exact absurd (by decide : ("CustomerId" : String) = "Customer" ++ "Id")
          (regularFields_key_ne_navId em _ f' hreg "Customer")
      · rcases (mem_navFields em baseUrl fetchList _ _).mp hnav with
          ⟨n, hn, _, _, hkeq, hfeq⟩
        have hnn : n.name = "Customer" := by
          apply string_append_right_cancel (u := "Id")
          rw [← hkeq]
          decide
        have : n = nav := huniq n hn hnn
        subst this
        rw [hfeq, hnn]
    apply recordGet_of_mem_of_unique
    · exact List.mem_reverse.mpr (List.mem_append.mpr (Or.inr hmemnav))
    · intro f' hf'
      exact huniqkey f' (by simpa [formSchema] using List.mem_reverse.mp hf')
  · intro em baseUrl fetchList nav hfk
    apply recordGet_eq_none_of_forall_not_mem
    intro f hf
    rcases List.mem_append.mp
        (by simpa [formSchema] using List.mem_reverse.mp hf) with hreg | hnav
    · exact regularFields_key_ne_navId em _ f hreg nav.name rfl
    · rcases (mem_navFields em baseUrl fetchList _ _).mp hnav with
        ⟨n, _, _, hfkn, hkeq, _⟩
      have hnn : n.name = nav.name :=
        string_append_right_cancel (u := "Id") hkeq.symm
      rw [hasForeignKey_eq_of_name_eq em n nav hnn, hfk] at hfkn
      cases hfkn

/-- Claim C6 witness: compiling the `Order` descriptor against a network
where `GET http://s/odata/Customer` returns one customer yields the
`CustomerId` select field with that customer as its option; and the same
descriptor with the `CustomerId` property removed skips the navigation. -/
theorem formSchema_customer_navigation_select_witness :
    (lookupLast (formSchema orderExample "http://s" customerFetchExample)
        "CustomerId" =
      some (mkNavField
        { name := "Customer", type := "Api.Models.Customer",
          nullable := false, isCollection := false, partner := some "Orders" }
        (customerFetchExample ("http://s" ++ "/odata/" ++ "Customer")))) ∧
    (lookupLast (formSchema
        { name := "Order"
          properties := [ { name := "OrderDate", type := "Edm.DateTimeOffset",
                            nullable := false, maxLength := none,
                            displayName := none, description := none,
                            placeholder := none } ]
          navigationProperties := orderExample.navigationProperties }
        "http://s" customerFetchExample) ("Customer" ++ "Id") = none) :=
  ⟨(formSchema_customer_navigation_select.1 orderExample "http://s"
      customerFetchExample
      { name := "Customer", type := "Api.Models.Customer", nullable := false,
        isCollection := false, partner := some "Orders" }
      (by decide) (by decide) rfl rfl (by decide)).1,
   formSchema_customer_navigation_select.2
      { name := "Order"
        properties := [ { name := "OrderDate", type := "Edm.DateTimeOffset",
                          nullable := false, maxLength := none,
                          displayName := none, description := none,
                          placeholder := none } ]
        navigationProperties := orderExample.navigationProperties }
      "http://s" customerFetchExample
      { name := "Customer", type := "Api.Models.Customer", nullable := false,
        isCollection := false, partner := some "Orders" }
      (by decide)⟩

/-! ## Claim C2 — create's validation-error normalization -/

/-- Reading a property off an untruthy optional JSON value gives
`undefined`: untruthy values are never objects. -/
theorem bind_jget_eq_none_of_untruthy (o : Option Json)
    (h : jtruthyO o = false) (k : String) :
    o.bind (fun j => jget j k) = none := by
  cases o with
  | none => rfl
  | some j => cases j <;> simp_all [jtruthyO, Json.truthy, jget]

/-- A fold of the extraction loop leaves keys it never assigns untouched. -/
theorem foldl_fmStep_not_mem (fields : List (String × Json))
    (acc : List (String × Json)) (k : String)
    (h : k ∉ fields.map Prod.fst) :
    recordGet (fields.foldl fmStep acc) k = recordGet acc k := by
  induction fields generalizing acc with
  | nil => rfl
  | cons kv rest ih =>
      have hk2 : k ≠ kv.1 := fun he => h (by simp [he])
      have htail : k ∉ rest.map Prod.fst := fun hm => h (by simp [hm])
      rw [List.foldl_cons, ih (fmStep acc kv) htail]
      rcases kv with ⟨k2, v2⟩
      cases v2 with
      | arr items =>
          cases items with
          | nil => rfl
          | cons m ms => exact recordGet_recordSet_ne acc k2 k m hk2
      | str s2 => exact recordGet_recordSet_ne acc k2 k _ hk2
      | null => rfl
      | num n2 => rfl
      | bool b2 => rfl
      | obj fs => rfl

/-- With unique field names, the extraction loop records the FIRST message
of a field whose value is a non-empty message array. -/
theorem foldl_fmStep_first_message (fields : List (String × Json))
    (k : String) (m : Json) (ms : List Json)
    (hnd : (fields.map Prod.fst).Nodup)
    (hget : recordGet fields k = some (.arr (m :: ms)))
    (acc : List (String × Json)) :
    recordGet (fields.foldl fmStep acc) k = some m := by
  induction fields generalizing acc with
  | nil => cases hget
  | cons kv rest ih =>
      rcases kv with ⟨k2, v2⟩
      by_cases hk : k2 = k
      · subst hk
        have hv : v2 = .arr (m :: ms) := by
          simpa [recordGet] using hget
        subst hv
        have hcons : (k2 :: rest.map Prod.fst).Nodup := by
          simpa using hnd
        have hknotin : k2 ∉ rest.map Prod.fst := (List.nodup_cons.mp hcons).1
        rw [List.foldl_cons, foldl_fmStep_not_mem rest _ k2 hknotin]
        exact recordGet_recordSet_self acc k2 m
      · have hget2 : recordGet rest k = some (.arr (m :: ms)) := by
          simpa [recordGet, hk] using hget
        have hcons : (k2 :: rest.map Prod.fst).Nodup := by
          simpa using hnd
        have hnd2 : (rest.map Prod.fst).Nodup := (List.nodup_cons.mp hcons).2
        rw [List.foldl_cons]
        exact ih hnd2 hget2 (fmStep acc (k2, v2))

/-- Claim C2 counterexample: the cached multi-entity hook's `create`
(lines 871-941, and likewise the unnamed per-entity variant) checks only the
`error.details[]` and nested `error.message` shapes, so the bare-map body
`{"Name":["The Name field is required."]}` is NOT recognized as a
validation failure — it falls through to the generic error, refuting the
claim that every create variant tries all three shapes and rejects this
body with a tagged validation error. -/
theorem createMulti_bare_map_yields_generic :
    classifyCreateErrorMulti 400 bareValidationBody =
      .generic "HTTP error! status: 400" ∧
    CrudError.generic "HTTP error! status: 400" ≠
      CrudError.validation [("Name", Json.str "The Name field is required.")] := by
  constructor
  · rfl
  · intro h
    cases h

/-- Claim C2 as amended: the entity-bound hook's `create` tries all three
body shapes, so any object body without a truthy `error` key whose entries
extraction is non-empty rejects with the tagged validation map, taking the
first message per field; the cached multi-entity hook's `create` checks only
the two `error.*` shapes, so the same bare-map body there falls through to
the generic HTTP-status error. -/
theorem create_bare_map_normalization :
    (∀ (fields : List (String × Json)) (status : Nat),
        jtruthyO (recordGet fields "error") = false →
        firstMessages fields ≠ [] →
        classifyCreateError status (.obj fields) =
          .validation (firstMessages fields)) ∧
    (∀ (fields : List (String × Json)) (k : String) (m : Json) (ms : List Json),
        (fields.map Prod.fst).Nodup →
        recordGet fields k = some (.arr (m :: ms)) →
        recordGet (firstMessages fields) k = some m) ∧
    (∀ (fields : List (String × Json)) (status : Nat),
        jtruthyO (recordGet fields "error") = false →
        classifyCreateErrorMulti status (.obj fields) =
          .generic ("HTTP error! status: " ++ toString status)) := by
  refine ⟨?_, ?_, ?_⟩
  · intro fields status herr hne
    have hie : (firstMessages fields).isEmpty = false := by
      simpa [List.isEmpty_iff] using hne
    simp [classifyCreateError, bareMapShape, typeofObject, jget, herr, hie,
      objEntries]
  · intro fields k m ms hnd hget
    exact foldl_fmStep_first_message fields k m ms hnd hget []
  · intro fields status herr
    cases hg : recordGet fields "error" with
    | none =>
        simp [classifyCreateErrorMulti, detailsShape, messageObjectShape,
          genericMessage, jget, hg]
    | some v =>
        have hv : v.truthy = false := by simpa [jtruthyO, hg] using herr
        cases v <;>
          simp_all [classifyCreateErrorMulti, detailsShape, messageObjectShape,
            genericMessage, jget, Json.truthy]

/-- Claim C2 witness: at the concrete body
`{"Name":["The Name field is required."]}` and status 400, the entity-bound
create rejects with the tagged validation map `{Name: "The Name field is
required."}` (the first message of the array), while the multi-entity create
yields a generic error. -/
theorem create_bare_map_normalization_witness :
    classifyCreateError 400 bareValidationBody =
      .validation [("Name", Json.str "The Name field is required.")] ∧
    recordGet (firstMessages
        [("Name", Json.arr [.str "The Name field is required."])]) "Name" =
      some (Json.str "The Name field is required.") ∧
    classifyCreateErrorMulti 400 bareValidationBody =
      .generic ("HTTP error! status: " ++ toString 400) :=
  ⟨create_bare_map_normalization.1
      [("Name", Json.arr [.str "The Name field is required."])] 400 rfl
      (by intro h; simp [show firstMessages
            [("Name", Json.arr [.str "The Name field is required."])] =
            [("Name", Json.str "The Name field is required.")] from rfl] at h),
   create_bare_map_normalization.2.1
      [("Name", Json.arr [.str "The Name field is required."])] "Name"
      (Json.str "The Name field is required.") [] (by decide) rfl,
   create_bare_map_normalization.2.2
      [("Name", Json.arr [.str "The Name field is required."])] 400 rfl⟩

end Referential
